import Mathlib

/-!
Verification of the story42 audio streaming pipeline against its
natural-language specification.  Definitions are shallow embeddings of the
Python source (`src/tools/tts_streaming.py`, `src/api/audio_routes.py`,
`src/agents/story_models.py`); theorems settle the spec's claims about them.

Conventions of the embedding:
* byte strings are `List ℕ` with entries < 256;
* Python `int.to_bytes(len, 'little')` raises `OverflowError` when the value
  does not fit, so it is embedded as an `Option`-returning function;
* wall-clock times (`time.time()`, `st_mtime`) are rationals `ℚ`;
* fallible operations return `Option`; a caught exception is the `none` path.
-/

namespace Story42

/-! ## WAV framer (`TTSStreamer._create_wav_header`, `_update_wav_header_sizes`) -/

/-- Little-endian byte expansion of `n` into `len` bytes
(`n.to_bytes(len, 'little')` without the range check). -/
def toBytesLE (n len : ℕ) : List ℕ :=
  (List.range len).map (fun i => n / 256 ^ i % 256)

/-- Python's `n.to_bytes(len, 'little')`: little-endian bytes, or `none`
when the value does not fit (`OverflowError`). -/
def toBytes? (n len : ℕ) : Option (List ℕ) :=
  if n < 256 ^ len then some (toBytesLE n len) else none

/-- `TTSStreamer._create_wav_header(sample_rate, channels, bits_per_sample,
data_size)`.  The Python builds a 44-byte `bytearray` by slice assignment at
contiguous offsets 0..43; each `int.to_bytes` call may raise, embedded here
as the `Option` bind, in the order the Python evaluates them. -/
def createWavHeader (sampleRate channels bitsPerSample dataSize : ℕ) :
    Option (List ℕ) :=
  let byteRate := sampleRate * channels * bitsPerSample / 8
  let blockAlign := channels * bitsPerSample / 8
  let fileSize := 36 + dataSize
  do
    -- wav_header[0:4] = b'RIFF'; wav_header[4:8] = file_size.to_bytes(4,'little')
    let fs ← toBytes? fileSize 4
    -- wav_header[8:12] = b'WAVE'; wav_header[12:16] = b'fmt '
    -- wav_header[16:20] = (16).to_bytes(4); wav_header[20:22] = (1).to_bytes(2)
    let ch ← toBytes? channels 2
    let sr ← toBytes? sampleRate 4
    let br ← toBytes? byteRate 4
    let ba ← toBytes? blockAlign 2
    let bps ← toBytes? bitsPerSample 2
    -- wav_header[36:40] = b'data'; wav_header[40:44] = data_size.to_bytes(4)
    let ds ← toBytes? dataSize 4
    return [82, 73, 70, 70] ++ fs ++ [87, 65, 86, 69] ++ [102, 109, 116, 32] ++
      toBytesLE 16 4 ++ toBytesLE 1 2 ++ ch ++ sr ++ br ++ ba ++ bps ++
      [100, 97, 116, 97] ++ ds

/-- `file.take n`, zero-padded up to length `n` (the gap a `seek` past
end-of-file leaves is read back as zero bytes). -/
def padTo (file : List ℕ) (n : ℕ) : List ℕ :=
  file.take n ++ List.replicate (n - file.length) 0

/-- Effect of `f.seek(off); f.write(data)` on a file opened `r+b`. -/
def writeAt (file : List ℕ) (off : ℕ) (data : List ℕ) : List ℕ :=
  padTo file off ++ data ++ file.drop (off + data.length)

/-- `TTSStreamer._update_wav_header_sizes(wav_path, data_size)`: seek to
offset 4 and write `(36 + data_size)` LE32, then seek to offset 40 and write
`data_size` LE32.  Any exception (notably `OverflowError` from `to_bytes`)
is caught and logged, leaving the file as it was at that point. -/
def updateWavHeaderSizes (file : List ℕ) (dataSize : ℕ) : List ℕ :=
  match toBytes? (36 + dataSize) 4 with
  | none => file
  | some fs =>
    match toBytes? dataSize 4 with
    | none => writeAt file 4 fs
    | some ds => writeAt (writeAt file 4 fs) 40 ds

/-! ## Real-time segment uploader (`TTSStreamer._realtime_s3_uploader`)

State confined to one run of the task: the `uploaded_segments` set, the
`segment_state` map `name ↦ (size, mtime, next_attempt_ts, failure_count)`
and the count of successful uploads.  One iteration of the inner `for`
loop over a single `segment_*.ts` file is one `scan` event: its inputs are
the `stat` observation (`st_size`, `st_mtime`), the current wall clock and
the outcome the object store would give an upload attempt.  The
cancellation drain re-walks the directory once; its per-segment body is a
`drain` event. -/

/-- One `segment_state` entry: `(last_size, last_mtime, next_attempt_ts,
failure_count)`. -/
structure SegEntry where
  size : Int
  mtime : ℚ
  nextAttempt : ℚ
  failures : ℕ
  deriving DecidableEq, Repr

/-- Uploader-task state. -/
structure UploaderState where
  uploaded : List String
  segState : List (String × SegEntry)
  uploadCount : ℕ
  deriving DecidableEq, Repr

/-- `uploaded_segments = set(); segment_state = {}; upload_count = 0`. -/
def initUploaderState : UploaderState := ⟨[], [], 0⟩

/-- Python dict assignment `segment_state[name] = e`: replace in place if
the key exists, else append. -/
def setSeg (m : List (String × SegEntry)) (k : String) (e : SegEntry) :
    List (String × SegEntry) :=
  if m.any (fun p => p.1 = k) then
    m.map (fun p => if p.1 = k then (k, e) else p)
  else m ++ [(k, e)]

/-- `segment_state.get(name)`. -/
def getSeg (m : List (String × SegEntry)) (k : String) : Option SegEntry :=
  (m.find? (fun p => p.1 = k)).map Prod.snd

/-- `segment_state.pop(name, None)`. -/
def popSeg (m : List (String × SegEntry)) (k : String) :
    List (String × SegEntry) :=
  m.filter (fun p => ¬ p.1 = k)

/-- `min(2 ** min(failure_count, 5), 30)` — the backoff (seconds) computed
after a failed upload attempt, `failure_count` already incremented. -/
def backoff (failures : ℕ) : ℕ :=
  min (2 ^ min failures 5) 30

/-- `stat` observation of one segment file plus the environment's answer to
an upload attempt (`uploadOk = true` iff `s3_storage.upload_fileobj` would
return `True`; a raised exception behaves as `false`, both take the same
failure branch). -/
structure SegObs where
  name : String
  size : Int
  mtime : ℚ
  now : ℚ
  uploadOk : Bool
  deriving DecidableEq, Repr

/-- One inner-loop iteration of the watch loop over one segment file.
Returns the new state and `some (name, ok)` when an upload was attempted
(`ok` its outcome), `none` when no attempt was made. -/
def processSegment (st : UploaderState) (o : SegObs) :
    UploaderState × Option (String × Bool) :=
  if o.name ∈ st.uploaded then (st, none)
  else
    let (lastSize, lastMtime, nextAttemptTs, failureCount) :=
      match getSeg st.segState o.name with
      | some e => (e.size, e.mtime, e.nextAttempt, e.failures)
      | none => (-1, 0, o.now + 1/2, 0)
    if o.size ≤ 0 then
      -- zero-byte file: wait until data arrives
      let m := setSeg st.segState o.name ⟨o.size, o.mtime, o.now + 1/2, failureCount⟩
      ({ st with segState := m }, none)
    else if o.size ≠ lastSize ∨ o.mtime ≠ lastMtime then
      -- still growing: reset the stability timer
      let m := setSeg st.segState o.name ⟨o.size, o.mtime, o.now + 1/2, failureCount⟩
      ({ st with segState := m }, none)
    else if o.now < nextAttemptTs then (st, none)
    else if o.uploadOk then
      ({ st with uploaded := o.name :: st.uploaded,
                 segState := popSeg st.segState o.name,
                 uploadCount := st.uploadCount + 1 },
       some (o.name, true))
    else
      let e : SegEntry :=
        ⟨o.size, o.mtime, o.now + (backoff (failureCount + 1) : ℚ), failureCount + 1⟩
      ({ st with segState := setSeg st.segState o.name e }, some (o.name, false))

/-- One per-segment step of the cancellation drain: upload iff the name is
not already in `uploaded_segments`; on success add it. -/
def drainSegment (st : UploaderState) (name : String) (uploadOk : Bool) :
    UploaderState × Option (String × Bool) :=
  if name ∈ st.uploaded then (st, none)
  else if uploadOk then
    ({ st with uploaded := name :: st.uploaded,
               uploadCount := st.uploadCount + 1 },
     some (name, true))
  else (st, some (name, false))

/-- An event seen by the uploader task over its lifetime. -/
inductive UploadEvent where
  | scan (o : SegObs)
  | drain (name : String) (uploadOk : Bool)
  deriving DecidableEq, Repr

/-- Dispatch one event. -/
def stepEvent (st : UploaderState) : UploadEvent → UploaderState × Option (String × Bool)
  | .scan o => processSegment st o
  | .drain name ok => drainSegment st name ok

/-- Run the uploader over a list of events; collect the upload attempts
`(name, ok)` in order. -/
def runUploader (st : UploaderState) :
    List UploadEvent → UploaderState × List (String × Bool)
  | [] => (st, [])
  | e :: evs =>
    let (st', a) := stepEvent st e
    let (stf, as) := runUploader st' evs
    (stf, a.toList ++ as)

/-! ## TTS stream fan-out (`TTSStreamer.stream_audio_generation` read loop)

A chunk is a byte string; the loop skips falsy (empty) chunks, strips the
44-byte header from the first non-empty chunk, and writes `chunk_to_save`
to the progressive WAV (and the HLS pipe) only when it is non-empty.
`fanOutWrites isFirst chunks` is the list of byte strings written, in
order, with `is_first_chunk = isFirst` at entry. -/

def fanOutWrites : Bool → List (List ℕ) → List (List ℕ)
  | _, [] => []
  | isFirst, c :: rest =>
    if c.isEmpty then fanOutWrites isFirst rest
    else
      let chunkToSave :=
        if isFirst then (if 44 ≤ c.length then c.drop 44 else []) else c
      (if chunkToSave.isEmpty then [] else [chunkToSave]) ++ fanOutWrites false rest

/-! ## Status endpoint (`get_audio_status` in `src/api/audio_routes.py`)

Inputs are what the handler observes: the two presigned-URL lookups for
`final.mp3` and `progressive.wav` in the store (each `none` when absent),
existence of the local `final.mp3`, the local `progressive.wav`'s mtime
(`none` when the file is absent) and the current wall clock.  Only the
fields of the response that carry the protocol (status / url / file_type /
source) are modelled; sizes and durations are informational extras. -/

structure StatusResponse where
  status : String
  url : Option String
  fileType : Option String
  source : Option String
  deriving DecidableEq, Repr

def getAudioStatus (s3Mp3Url s3WavUrl : Option String) (localMp3 : Bool)
    (localWavMtime : Option ℚ) (now : ℚ) : StatusResponse :=
  match s3Mp3Url with
  | some u => ⟨"ready", some u, some "mp3", some "s3"⟩
  | none =>
  match s3WavUrl with
  | some u => ⟨"ready", some u, some "wav", some "s3"⟩
  | none =>
  if localMp3 then
    ⟨"ready", some "/api/v1/audio/stream/{session_id}", some "mp3", none⟩
  else
    match localWavMtime with
    | some mtime =>
      -- is_generating = time.time() - file_mtime < 3
      if now - mtime < 3 then
        ⟨"generating", some "/api/v1/audio/stream/{session_id}", some "wav", none⟩
      else
        ⟨"ready", some "/api/v1/audio/stream/{session_id}", some "wav", none⟩
    | none => ⟨"not_generated", none, none, none⟩

/-! ## Generate endpoint (`generate_audio_stream` in `src/api/audio_routes.py`)

The request body is an arbitrary JSON value; Python truthiness decides both
`has_body` and the two `body.get(...)` checks. -/

/-- A JSON-ish Python value, enough for the request-body logic. -/
inductive PyValue where
  | pyNone
  | pyBool (b : Bool)
  | pyInt (n : Int)
  | pyStr (s : String)
  | pyList (xs : List PyValue)
  | pyDict (entries : List (String × PyValue))

/-- Python truthiness of a value. -/
def pyTruthy : PyValue → Bool
  | .pyNone => false
  | .pyBool b => b
  | .pyInt n => n ≠ 0
  | .pyStr s => ¬ s.isEmpty
  | .pyList xs => ¬ xs.isEmpty
  | .pyDict es => ¬ es.isEmpty

/-- `isinstance(v, dict)`. -/
def isPyDict : PyValue → Bool
  | .pyDict _ => true
  | _ => false

/-- `body.get(key)` on a dict (`None` when missing); only called on dicts. -/
def pyGet (v : PyValue) (key : String) : PyValue :=
  match v with
  | .pyDict es => ((es.find? (fun p => p.1 = key)).map Prod.snd).getD .pyNone
  | _ => .pyNone

/-- `key in body`: the body carries some value (any value) for the key. -/
def pyHasKey (v : PyValue) (key : String) : Bool :=
  match v with
  | .pyDict es => es.any (fun p => p.1 = key)
  | _ => false

/-- The `force_regenerate` computation at the top of `generate_audio_stream`:
`has_body = body and isinstance(body, dict)`;
`force_regenerate = bool(has_body and body.get("force_regenerate"))`;
`if has_body and body.get("speaker_voice_overrides"): force_regenerate = True`.
`body` is `none` when the endpoint received no JSON body. -/
def computeForceRegenerate (body : Option PyValue) : Bool :=
  let hasBody :=
    match body with
    | some v => pyTruthy v && isPyDict v
    | none => false
  let b := (body.getD .pyNone)
  let force := hasBody && pyTruthy (pyGet b "force_regenerate")
  if hasBody && pyTruthy (pyGet b "speaker_voice_overrides") then true
  else force

/-- What the endpoint decides before any story is loaded, given the
artifact checks it performs in order. -/
inductive GenerateDecision where
  | readyS3 | generatingS3 | readyLocal | generatingLocal
  | cleanupThenStart | startDirectly
  deriving DecidableEq, Repr

/-- The short-circuit / cleanup decision sequence of `generate_audio_stream`
(the part guarded by `force_regenerate`).  `hasUserId` reflects
`user_id` being set; `wavAge` is `time.time() - progressive_wav.stat().st_mtime`
for the local file when it exists. -/
def generateDecision (forceRegenerate : Bool) (hasUserId : Bool)
    (s3Mp3 s3Wav : Bool) (localMp3 : Bool) (localWavAge : Option ℚ) :
    GenerateDecision :=
  if ¬ forceRegenerate && hasUserId && s3Mp3 then .readyS3
  else if ¬ forceRegenerate && hasUserId && s3Wav then .generatingS3
  else if localMp3 && ¬ forceRegenerate then .readyLocal
  else
    let recentWav :=
      match localWavAge with
      | some age => decide (age < 30)
      | none => false
    if recentWav && ¬ forceRegenerate then .generatingLocal
    else if forceRegenerate then .cleanupThenStart
    else .startDirectly

/-! ## Stream endpoint (`stream_audio` in `src/api/audio_routes.py`)

The handler picks `final.mp3` over `progressive.wav`, 404s when neither
exists, and on a truthy `Range` header tries to parse and serve a 206; any
exception inside the `try` (e.g. `int()` on a non-numeric bound, or the
missing second element after `split('-')`) is caught and the handler falls
through to the full-file `FileResponse`. -/

/-- `pat` is a prefix of the character list. -/
def isPrefixList : List Char → List Char → Bool
  | [], _ => true
  | _ :: _, [] => false
  | p :: ps, c :: cs => p = c && isPrefixList ps cs

/-- Python `str.replace(pat, rep)` over character lists: replace every
(left-to-right, non-overlapping) occurrence.  `fuel` only drives the
structural recursion; with `fuel ≥ length` it never runs out. -/
def replaceAll (pat rep : List Char) : ℕ → List Char → List Char
  | _, [] => []
  | 0, s => s
  | fuel + 1, c :: cs =>
    if isPrefixList pat (c :: cs) then
      rep ++ replaceAll pat rep fuel ((c :: cs).drop pat.length)
    else c :: replaceAll pat rep fuel cs

/-- Python `str.split(sep)` for a one-character separator: empty parts are
preserved, matching `'a--b'.split('-') == ['a', '', 'b']`. -/
def splitOnChar (sep : Char) : List Char → List (List Char)
  | [] => [[]]
  | c :: rest =>
    if c = sep then [] :: splitOnChar sep rest
    else
      match splitOnChar sep rest with
      | [] => [[c]]
      | g :: gs => (c :: g) :: gs

/-- Decimal digits to a number, `none` when empty or non-digit
(`str.isdigit`-style acceptance). -/
def charsToNat? (cs : List Char) : Option ℕ :=
  if cs ≠ [] ∧ cs.all (·.isDigit) then
    some (cs.foldl (fun n c => n * 10 + (c.toNat - 48)) 0)
  else none

/-- Python `int(s)` on a decimal string: strips surrounding whitespace,
accepts an optional sign, then decimal digits.  (Python additionally
accepts single underscores between digits and unicode digits; those are
not modelled.)  `none` is the raised `ValueError`. -/
def pyIntChars? (s : List Char) : Option ℤ :=
  let t := ((s.dropWhile (·.isWhitespace)).reverse.dropWhile
    (·.isWhitespace)).reverse
  match t with
  | '-' :: rest => (charsToNat? rest).map (fun n => -(n : ℤ))
  | '+' :: rest => (charsToNat? rest).map (fun n => (n : ℤ))
  | _ => (charsToNat? t).map (fun n => (n : ℤ))

/-- The `try` block's parse of the Range header:
`range_match = range_header.replace('bytes=', '').split('-')`;
`start = int(range_match[0]) if range_match[0] else 0`;
`end = int(range_match[1]) if range_match[1] else file_size - 1`;
`end = min(end, file_size - 1)`.
A single-element split makes `range_match[1]` raise `IndexError`; together
with `int()`'s `ValueError` these are the `none` path. -/
def parseRange? (h : String) (fileSize : ℕ) : Option (ℤ × ℤ) :=
  let stripped := replaceAll "bytes=".data [] (h.data.length + 1) h.data
  match splitOnChar '-' stripped with
  | a :: b :: _ => do
    let start ← if a = [] then some 0 else pyIntChars? a
    let e ← if b = [] then some ((fileSize : ℤ) - 1) else pyIntChars? b
    some (start, min e ((fileSize : ℤ) - 1))
  | _ => none

/-- `f.seek(start); f.read(count)`: a negative count reads to end-of-file. -/
def pyRead (file : List ℕ) (start count : ℤ) : List ℕ :=
  let rest := file.drop start.toNat
  if count < 0 then rest else rest.take count.toNat

inductive StreamResult where
  | notFound
  | rangeResponse (status : ℕ) (content : List ℕ)
      (rangeStart rangeEnd : ℤ) (fileSize : ℕ) (acceptRanges : String)
  | fullFile (status : ℕ) (acceptRanges : String)
  deriving DecidableEq, Repr

/-- `stream_audio`: file selection, Range handling and the fallback. -/
def streamAudio (mp3Exists wavExists : Bool) (file : List ℕ)
    (rangeHeader : Option String) : StreamResult :=
  if ¬ mp3Exists && ¬ wavExists then .notFound
  else
    let fileSize := file.length
    let hdr := rangeHeader.getD ""
    -- `if range_header:` — None and the empty string are falsy
    if ¬ hdr.isEmpty then
      match parseRange? hdr fileSize with
      | some (s, e) =>
        .rangeResponse 206 (pyRead file s (e - s + 1)) s e fileSize "bytes"
      | none => .fullFile 200 "bytes"
    else .fullFile 200 "bytes"

/-! ## Script formatter (`StoryStructure.to_tts_script` in
`src/agents/story_models.py`) -/

structure DialogueLine where
  speaker : String
  text : String
  deriving DecidableEq, Repr

structure Chapter where
  chapterNumber : Int
  title : String
  lines : List DialogueLine
  deriving DecidableEq, Repr

structure StoryStructure where
  title : String
  characters : List String
  chapters : List Chapter
  deriving DecidableEq, Repr

/-- Python dict assignment `d[k] = v`: replace in place when the key is
present, else append (insertion order preserved). -/
def dictInsert (d : List (String × String)) (k v : String) :
    List (String × String) :=
  if d.any (fun p => p.1 = k) then
    d.map (fun p => if p.1 = k then (k, v) else p)
  else d ++ [(k, v)]

/-- `k in d` / `d[k]` lookup. -/
def dictGet? (d : List (String × String)) (k : String) : Option String :=
  (d.find? (fun p => p.1 = k)).map Prod.snd

/-- `speaker_mapping = {"Narrator": "Speaker 1"}` followed by
`for char in self.characters[:3]: speaker_mapping[char] = f"Speaker {n}"`,
`n` starting at 2 and incremented each iteration. -/
def buildSpeakerMapping (characters : List String) : List (String × String) :=
  (characters.take 3).enum.foldl
    (fun m p => dictInsert m p.2 ("Speaker " ++ toString (p.1 + 2)))
    [("Narrator", "Speaker 1")]

/-- One formatted script line: the speaker is mapped through
`speaker_mapping`, an unmapped speaker defaults to `Speaker 1`. -/
def formatLine (m : List (String × String)) (l : DialogueLine) : String :=
  (match dictGet? m l.speaker with
   | some s => s
   | none => "Speaker 1") ++ ": " ++ l.text

/-- All formatted lines, chapters in order. -/
def scriptLines (story : StoryStructure) : List String :=
  (story.chapters.map
    (fun ch => ch.lines.map (formatLine (buildSpeakerMapping story.characters)))).flatten

/-- The `speakers_used` set (as the list of slot names that occur). -/
def speakersUsed (story : StoryStructure) : List String :=
  (story.chapters.map
    (fun ch => ch.lines.map (fun l =>
      match dictGet? (buildSpeakerMapping story.characters) l.speaker with
      | some s => s
      | none => "Speaker 1"))).flatten

/-- `StoryStructure.to_tts_script`: returns
`(formatted_script, unique_speakers, speaker_mapping)`. -/
def toTtsScript (story : StoryStructure) :
    String × List String × List (String × String) :=
  let mapping := buildSpeakerMapping story.characters
  let formattedScript := String.intercalate "\n" (scriptLines story)
  let used := speakersUsed story
  let uniqueSpeakers :=
    ([1, 2, 3, 4] : List ℕ).filterMap (fun i =>
      let name := "Speaker " ++ toString i
      if name ∈ used then some name else none)
  (formattedScript, uniqueSpeakers, mapping)

/-! ## Theorems -/

/-! ### C1: WAV header well-formedness -/

lemma toBytesLE_four (n : ℕ) : toBytesLE n 4 =
    [n % 256, n / 256 % 256, n / 256 ^ 2 % 256, n / 256 ^ 3 % 256] := by
  simp [toBytesLE, List.range_succ]

lemma toBytesLE_two (n : ℕ) : toBytesLE n 2 = [n % 256, n / 256 % 256] := by
  simp [toBytesLE, List.range_succ]

lemma toBytes?_of_lt {n len : ℕ} (h : n < 256 ^ len) :
    toBytes? n len = some (toBytesLE n len) := by
  simp [toBytes?, h]

/-- Explicit form of the header for the pipeline's fixed parameters
(24 kHz, mono, 16-bit), when both size fields fit in 32 bits. -/
lemma createWavHeader_eq (N : ℕ) (h : 36 + N < 4294967296) :
    createWavHeader 24000 1 16 N =
      some ([82, 73, 70, 70] ++ toBytesLE (36 + N) 4 ++
        ([87, 65, 86, 69] ++ [102, 109, 116, 32] ++ [16, 0, 0, 0] ++ [1, 0] ++
         [1, 0] ++ [192, 93, 0, 0] ++ [128, 187, 0, 0] ++ [2, 0] ++ [16, 0] ++
         [100, 97, 116, 97]) ++ toBytesLE N 4) := by
  have h256 : (256 : ℕ) ^ 4 = 4294967296 := by norm_num
  have hfs : toBytes? (36 + N) 4 = some (toBytesLE (36 + N) 4) :=
    toBytes?_of_lt (by omega)
  have hds : toBytes? N 4 = some (toBytesLE N 4) :=
    toBytes?_of_lt (by omega)
  simp only [createWavHeader, hfs, hds, Option.bind_eq_bind, Option.some_bind,
    bind, toBytes?_of_lt (by norm_num : (1:ℕ) < 256 ^ 2),
    toBytes?_of_lt (by norm_num : (24000:ℕ) < 256 ^ 4),
    toBytes?_of_lt (by norm_num : (24000 * 1 * 16 / 8 : ℕ) < 256 ^ 4),
    toBytes?_of_lt (by norm_num : (1 * 16 / 8 : ℕ) < 256 ^ 2),
    toBytes?_of_lt (by norm_num : (16:ℕ) < 256 ^ 2)]
  norm_num [toBytesLE_four, toBytesLE_two]

/-- C1 (amended): for every `N` with `36 + N < 2 ^ 32`, the header built by
`_create_wav_header(24000, 1, 16, N)` is 44 bytes with `"RIFF"` at 0..3,
`"WAVE"` at 8..11, `"data"` at 36..39, `N` little-endian at 40..43 and
`36 + N` little-endian at 4..7.  (For larger `N` the `int.to_bytes` call
raises `OverflowError`; see the counterexample.) -/
theorem wav_header_wellformed (N : ℕ) (h : 36 + N < 4294967296) :
    (createWavHeader 24000 1 16 N).map List.length = some 44 ∧
    (createWavHeader 24000 1 16 N).map (List.take 4) = some [82, 73, 70, 70] ∧
    (createWavHeader 24000 1 16 N).map (fun hd => (hd.drop 8).take 4) =
      some [87, 65, 86, 69] ∧
    (createWavHeader 24000 1 16 N).map (fun hd => (hd.drop 36).take 4) =
      some [100, 97, 116, 97] ∧
    (createWavHeader 24000 1 16 N).map (fun hd => (hd.drop 40).take 4) =
      some (toBytesLE N 4) ∧
    (createWavHeader 24000 1 16 N).map (fun hd => (hd.drop 4).take 4) =
      some (toBytesLE (36 + N) 4) := by
  rw [createWavHeader_eq N h]
  simp [toBytesLE_four]

/-- C1 witness: the amended claim instantiated at `N = 12`. -/
theorem wav_header_wellformed_witness :
    (createWavHeader 24000 1 16 12).map List.length = some 44 ∧
    (createWavHeader 24000 1 16 12).map (List.take 4) = some [82, 73, 70, 70] ∧
    (createWavHeader 24000 1 16 12).map (fun hd => (hd.drop 8).take 4) =
      some [87, 65, 86, 69] ∧
    (createWavHeader 24000 1 16 12).map (fun hd => (hd.drop 36).take 4) =
      some [100, 97, 116, 97] ∧
    (createWavHeader 24000 1 16 12).map (fun hd => (hd.drop 40).take 4) =
      some (toBytesLE 12 4) ∧
    (createWavHeader 24000 1 16 12).map (fun hd => (hd.drop 4).take 4) =
      some (toBytesLE (36 + 12) 4) :=
  wav_header_wellformed 12 (by norm_num)

/-- C1 counterexample: at `N = 2 ^ 32 - 36` the claim as stated fails — the
code raises `OverflowError` from `file_size.to_bytes(4, 'little')` instead
of returning a header. -/
theorem wav_header_overflow_counterexample :
    createWavHeader 24000 1 16 4294967260 = none := by decide

/-! ### C9: patch idempotence -/

lemma toBytesLE_length (n len : ℕ) : (toBytesLE n len).length = len := by
  simp [toBytesLE]

/-- The bytes of `l` at offsets `a ≤ · < a + b` (short when `l` ends). -/
def slice (l : List ℕ) (a b : ℕ) : List ℕ := (l.drop a).take b

lemma padTo_length (file : List ℕ) (n : ℕ) : (padTo file n).length = n := by
  simp [padTo]; omega

lemma writeAt_length (file : List ℕ) (off : ℕ) (data : List ℕ) :
    (writeAt file off data).length =
      off + data.length + (file.length - (off + data.length)) := by
  simp [writeAt, padTo_length]; omega

lemma slice_writeAt_self (file : List ℕ) (off : ℕ) (data : List ℕ) :
    slice (writeAt file off data) off data.length = data := by
  rw [slice, writeAt, List.append_assoc, List.drop_left' (padTo_length file off),
    List.take_append_of_le_length (by simp), List.take_length]

lemma slice_writeAt_before (file : List ℕ) (off : ℕ) (data : List ℕ)
    (a b : ℕ) (h : a + b ≤ off) :
    slice (writeAt file off data) a b = slice (padTo file off) a b := by
  rw [slice, slice, writeAt, List.append_assoc,
    List.drop_append_of_le_length (by rw [padTo_length]; omega),
    List.take_append_of_le_length (by rw [List.length_drop, padTo_length]; omega)]

lemma slice_padTo (file : List ℕ) (n a b : ℕ) (hn : a + b ≤ n)
    (hf : a + b ≤ file.length) :
    slice (padTo file n) a b = slice file a b := by
  rw [slice, slice, padTo,
    List.drop_append_of_le_length (by rw [List.length_take]; omega),
    List.take_append_of_le_length (by rw [List.length_drop, List.length_take]; omega),
    List.drop_take, List.take_take]
  congr 1
  omega

/-- Writing bytes that are already there is a no-op. -/
lemma writeAt_eq_self (file : List ℕ) (off : ℕ) (data : List ℕ)
    (hoff : off ≤ file.length) (hs : slice file off data.length = data) :
    writeAt file off data = file := by
  have h1 : (file.drop off).take data.length = data := hs
  have h2 : (file.drop off).drop data.length = file.drop (off + data.length) :=
    List.drop_drop data.length off file
  have hsuffix : data ++ file.drop (off + data.length) = file.drop off := by
    conv_rhs => rw [← List.take_append_drop data.length (file.drop off)]
    rw [h1, h2]
  rw [writeAt, padTo, Nat.sub_eq_zero_of_le hoff]
  simp only [List.replicate_zero, List.append_nil]
  rw [List.append_assoc, hsuffix, List.take_append_drop]

/-- C9: patching a WAV file's header twice with the same `data_size` yields
content byte-identical to patching it once
(`_update_wav_header_sizes` is idempotent). -/
theorem update_wav_header_idempotent (file : List ℕ) (dataSize : ℕ) :
    updateWavHeaderSizes (updateWavHeaderSizes file dataSize) dataSize =
      updateWavHeaderSizes file dataSize := by
  rcases hfs : toBytes? (36 + dataSize) 4 with _ | fs
  · simp [updateWavHeaderSizes, hfs]
  · have hfslen : fs.length = 4 := by
      rw [toBytes?] at hfs
      split at hfs
      · cases hfs; exact toBytesLE_length _ _
      · cases hfs
    rcases hds : toBytes? dataSize 4 with _ | ds
    · -- unreachable in the code (`dataSize < 36 + dataSize`), but the
      -- intermediate single-write state is idempotent too
      simp only [updateWavHeaderSizes, hfs, hds]
      exact writeAt_eq_self _ _ _
        (by rw [writeAt_length]; omega) (slice_writeAt_self _ _ _)
    · have hdslen : ds.length = 4 := by
        rw [toBytes?] at hds
        split at hds
        · cases hds; exact toBytesLE_length _ _
        · cases hds
      simp only [updateWavHeaderSizes, hfs, hds]
      set g := writeAt file 4 fs with hg
      have hglen : 8 ≤ g.length := by rw [hg, writeAt_length, hfslen]; omega
      set A := writeAt g 40 ds with hA
      have hAlen : 44 ≤ A.length := by rw [hA, writeAt_length, hdslen]; omega
      have hsliceA4 : slice A 4 4 = fs := by
        rw [hA, slice_writeAt_before _ _ _ _ _ (by omega),
          slice_padTo _ _ _ _ (by omega) (by omega), hg]
        have h0 := slice_writeAt_self file 4 fs
        rwa [hfslen] at h0
      have hsliceA40 : slice A 40 4 = ds := by
        rw [hA]
        have h0 := slice_writeAt_self g 40 ds
        rwa [hdslen] at h0
      rw [writeAt_eq_self A 4 fs (by omega) (by rw [hfslen]; exact hsliceA4),
        writeAt_eq_self A 40 ds (by omega) (by rw [hdslen]; exact hsliceA40)]

/-! ### C6: exactly one header strip, on the first non-empty chunk -/

lemma fanOutWrites_false (l : List (List ℕ)) :
    fanOutWrites false l = l.filter (fun c => !c.isEmpty) := by
  induction l with
  | nil => rfl
  | cons c rest ih =>
    by_cases hc : c.isEmpty <;>
      simp [fanOutWrites, hc, ih, List.filter_cons]

/-- C6: in the fan-out loop exactly one header strip happens, on the first
received non-empty chunk: with `is_first_chunk = True`, the sequence of
byte strings written to the WAV file (and the HLS pipe) is — first chunk's
bytes after dropping 44 when it has more than 44 bytes (nothing when it has
44 or fewer, so a short first chunk is discarded entirely), then every
later non-empty chunk verbatim; in particular the bytes saved are the first
non-empty chunk minus its first 44 bytes followed by the rest unmodified. -/
theorem first_chunk_header_strip (chunks : List (List ℕ)) (c : List ℕ)
    (rest : List (List ℕ))
    (h : chunks.filter (fun x => !x.isEmpty) = c :: rest) :
    fanOutWrites true chunks =
      (if 44 < c.length then [c.drop 44] else []) ++ rest ∧
    (fanOutWrites true chunks).flatten =
      (if 44 ≤ c.length then c.drop 44 else []) ++ rest.flatten := by
  have main : fanOutWrites true chunks =
      (if 44 < c.length then [c.drop 44] else []) ++ rest := by
    induction chunks with
    | nil => simp at h
    | cons x xs ih =>
      by_cases hx : x.isEmpty
      · rw [List.filter_cons_of_neg (by simp [hx])] at h
        simpa [fanOutWrites, hx] using ih h
      · rw [List.filter_cons_of_pos (by simp [hx])] at h
        injection h with h1 h2
        subst h2
        rw [h1] at hx
        rw [h1]
        simp only [fanOutWrites, hx, Bool.false_eq_true, if_false, if_true]
        rw [fanOutWrites_false]
        by_cases h44 : 44 ≤ c.length
        · rw [if_pos h44]
          by_cases heq : c.length = 44
          · have hemp : (c.drop 44).isEmpty = true := by
              rw [List.isEmpty_iff_length_eq_zero, List.length_drop]; omega
            rw [if_pos hemp, if_neg (by omega)]
          · have hemp : ¬ (c.drop 44).isEmpty = true := by
              rw [List.isEmpty_iff_length_eq_zero, List.length_drop]; omega
            rw [if_neg hemp, if_pos (by omega)]
        · rw [if_neg h44, if_neg (by omega : ¬ 44 < c.length)]
          simp
  refine ⟨main, ?_⟩
  rw [main]
  by_cases h44 : 44 ≤ c.length
  · by_cases heq : c.length = 44
    · have hnil : c.drop 44 = [] := by
        rw [← List.length_eq_zero, List.length_drop]; omega
      rw [if_neg (by omega), if_pos h44, hnil]
      simp
    · rw [if_pos (by omega), if_pos h44]
      simp
  · rw [if_neg (by omega), if_neg h44]
    simp

/-- C6 witness: a run whose first non-empty chunk has 45 bytes. -/
theorem first_chunk_header_strip_witness :
    (([[], List.replicate 45 7, [9]] : List (List ℕ)).filter
        (fun x => !x.isEmpty) = List.replicate 45 7 :: [[9]]) ∧
    (fanOutWrites true [[], List.replicate 45 7, [9]] =
      (if 44 < (List.replicate 45 7 : List ℕ).length then
        [(List.replicate 45 7 : List ℕ).drop 44] else []) ++ [[9]] ∧
     (fanOutWrites true [[], List.replicate 45 7, [9]]).flatten =
      (if 44 ≤ (List.replicate 45 7 : List ℕ).length then
        (List.replicate 45 7 : List ℕ).drop 44 else []) ++ [[9]].flatten) :=
  ⟨by decide, first_chunk_header_strip _ _ _ (by decide)⟩

/-! ### C2: at-most-once segment uploads -/

lemma processSegment_uploaded_mono (st : UploaderState) (o : SegObs)
    (n : String) (hn : n ∈ st.uploaded) :
    n ∈ (processSegment st o).1.uploaded := by
  unfold processSegment
  repeat' split
  all_goals simp_all [List.mem_cons]

lemma processSegment_attempt_not_uploaded (st : UploaderState) (o : SegObs)
    (n : String) (ok : Bool) (h : (processSegment st o).2 = some (n, ok)) :
    n ∉ st.uploaded := by
  unfold processSegment at h
  repeat' split at h
  all_goals simp_all

lemma processSegment_put_uploaded (st : UploaderState) (o : SegObs)
    (n : String) (h : (processSegment st o).2 = some (n, true)) :
    n ∈ (processSegment st o).1.uploaded := by
  revert h
  unfold processSegment
  repeat' split
  all_goals simp_all

lemma drainSegment_uploaded_mono (st : UploaderState) (name : String)
    (ok : Bool) (n : String) (hn : n ∈ st.uploaded) :
    n ∈ (drainSegment st name ok).1.uploaded := by
  unfold drainSegment
  repeat' split
  all_goals simp_all [List.mem_cons]

lemma drainSegment_attempt_not_uploaded (st : UploaderState) (name : String)
    (ok : Bool) (n : String) (ok' : Bool)
    (h : (drainSegment st name ok).2 = some (n, ok')) :
    n ∉ st.uploaded := by
  unfold drainSegment at h
  repeat' split at h
  all_goals simp_all

lemma drainSegment_put_uploaded (st : UploaderState) (name : String)
    (ok : Bool) (n : String)
    (h : (drainSegment st name ok).2 = some (n, true)) :
    n ∈ (drainSegment st name ok).1.uploaded := by
  revert h
  unfold drainSegment
  repeat' split
  all_goals simp_all

lemma stepEvent_uploaded_mono (st : UploaderState) (e : UploadEvent)
    (n : String) (hn : n ∈ st.uploaded) :
    n ∈ (stepEvent st e).1.uploaded := by
  cases e with
  | scan o => exact processSegment_uploaded_mono st o n hn
  | drain name ok => exact drainSegment_uploaded_mono st name ok n hn

lemma stepEvent_attempt_not_uploaded (st : UploaderState) (e : UploadEvent)
    (n : String) (ok : Bool) (h : (stepEvent st e).2 = some (n, ok)) :
    n ∉ st.uploaded := by
  cases e with
  | scan o => exact processSegment_attempt_not_uploaded st o n ok h
  | drain name ok' => exact drainSegment_attempt_not_uploaded st name ok' n ok h

lemma stepEvent_put_uploaded (st : UploaderState) (e : UploadEvent)
    (n : String) (h : (stepEvent st e).2 = some (n, true)) :
    n ∈ (stepEvent st e).1.uploaded := by
  cases e with
  | scan o => exact processSegment_put_uploaded st o n h
  | drain name ok => exact drainSegment_put_uploaded st name ok n h

/-- Number of successful PUTs for `name` among the recorded attempts. -/
def countSuccessfulPuts (attempts : List (String × Bool)) (name : String) : ℕ :=
  (attempts.filter (fun a => a.1 = name && a.2)).length

lemma runUploader_count_le (evs : List UploadEvent) :
    ∀ (st : UploaderState) (n : String),
      countSuccessfulPuts (runUploader st evs).2 n ≤
        if n ∈ st.uploaded then 0 else 1 := by
  induction evs with
  | nil =>
    intro st n
    simp [runUploader, countSuccessfulPuts]
  | cons e evs ih =>
    intro st n
    rcases hstep : stepEvent st e with ⟨st', a⟩
    have hrun : (runUploader st (e :: evs)).2 =
        a.toList ++ (runUploader st' evs).2 := by
      simp [runUploader, hstep]
    rw [hrun]
    have hcount : countSuccessfulPuts (a.toList ++ (runUploader st' evs).2) n =
        countSuccessfulPuts a.toList n + countSuccessfulPuts (runUploader st' evs).2 n := by
      simp [countSuccessfulPuts]
    rw [hcount]
    by_cases hn : n ∈ st.uploaded
    · have hn' : n ∈ st'.uploaded := by
        have := stepEvent_uploaded_mono st e n hn
        rw [hstep] at this
        exact this
      have ha : countSuccessfulPuts a.toList n = 0 := by
        rcases a with _ | ⟨m, ok⟩
        · simp [countSuccessfulPuts]
        · have hm : m ∉ st.uploaded ∨ True := Or.inr trivial
          by_cases hmn : m = n ∧ ok = true
          · exfalso
            obtain ⟨rfl, rfl⟩ := hmn
            exact stepEvent_attempt_not_uploaded st e m true (by rw [hstep]) hn
          · simp only [countSuccessfulPuts, Option.toList]
            rw [List.filter_cons]
            simp only [List.filter_nil]
            split
            · rename_i hcond
              exfalso
              simp at hcond
              exact hmn ⟨hcond.1, hcond.2⟩
            · simp
      have := ih st' n
      rw [if_pos hn'] at this
      rw [if_pos hn]
      omega
    · rw [if_neg hn]
      rcases a with _ | ⟨m, ok⟩
      · have := ih st' n
        have hz : countSuccessfulPuts (Option.toList (none : Option (String × Bool))) n = 0 := by
          simp [countSuccessfulPuts]
        rw [hz]
        split at this <;> omega
      · by_cases hmn : m = n ∧ ok = true
        · obtain ⟨rfl, rfl⟩ := hmn
          have hone : countSuccessfulPuts (Option.toList (some (m, true))) m = 1 := by
            simp [countSuccessfulPuts]
          rw [hone]
          have hn' : m ∈ st'.uploaded := by
            have := stepEvent_put_uploaded st e m (by rw [hstep])
            rw [hstep] at this
            exact this
          have := ih st' m
          rw [if_pos hn'] at this
          omega
        · have hz : countSuccessfulPuts (Option.toList (some (m, ok))) n = 0 := by
            simp only [countSuccessfulPuts, Option.toList]
            rw [List.filter_cons]
            simp only [List.filter_nil]
            split
            · rename_i hcond
              exfalso
              simp at hcond
              exact hmn ⟨hcond.1, hcond.2⟩
            · simp
          rw [hz]
          have := ih st' n
          split at this <;> omega

lemma runUploader_no_attempts_of_uploaded (evs : List UploadEvent) :
    ∀ (st : UploaderState) (n : String), n ∈ st.uploaded →
      ((runUploader st evs).2.all (fun a => !(a.1 = n : Bool))) = true := by
  induction evs with
  | nil =>
    intro st n _
    simp [runUploader]
  | cons e evs ih =>
    intro st n hn
    rcases hstep : stepEvent st e with ⟨st', a⟩
    have hrun : (runUploader st (e :: evs)).2 =
        a.toList ++ (runUploader st' evs).2 := by
      simp [runUploader, hstep]
    rw [hrun, List.all_append]
    have hn' : n ∈ st'.uploaded := by
      have := stepEvent_uploaded_mono st e n hn
      rw [hstep] at this
      exact this
    rw [ih st' n hn']
    rcases a with _ | ⟨m, ok⟩
    · simp
    · have hm : m ∉ st.uploaded :=
        stepEvent_attempt_not_uploaded st e m ok (by rw [hstep])
      have hne : ¬ m = n := fun hcontr => hm (hcontr ▸ hn)
      simp [hne]

/-- C2: over any finite run of the real-time uploader (watch-loop scans and
the cancellation drain, in any order the task could see them), each segment
name receives at most one successful PUT, and from any state whose
`uploaded_segments` set already holds the name, no upload of that name is
ever attempted again. -/
theorem segment_upload_at_most_once (evs : List UploadEvent) (name : String) :
    countSuccessfulPuts (runUploader initUploaderState evs).2 name ≤ 1 ∧
    ∀ st : UploaderState, name ∈ st.uploaded →
      ((runUploader st evs).2.all (fun a => !(a.1 = name : Bool))) = true := by
  constructor
  · have := runUploader_count_le evs initUploaderState name
    have hmem : name ∉ initUploaderState.uploaded := by simp [initUploaderState]
    rw [if_neg hmem] at this
    exact this
  · intro st hst
    exact runUploader_no_attempts_of_uploaded evs st name hst

/-- C2 witness: a concrete two-event run (a successful stable-segment scan
followed by a drain retry of the same name), and the no-reattempt clause
from a state that already uploaded the name. -/
theorem segment_upload_at_most_once_witness :
    (countSuccessfulPuts
      (runUploader initUploaderState
        [.scan ⟨"segment_000.ts", 100, 1, 5, true⟩,
         .drain "segment_000.ts" true]).2 "segment_000.ts" ≤ 1) ∧
    ("segment_000.ts" ∈ (⟨["segment_000.ts"], [], 1⟩ : UploaderState).uploaded) ∧
    (((runUploader (⟨["segment_000.ts"], [], 1⟩ : UploaderState)
        [.drain "segment_000.ts" true]).2.all
          (fun a => !(a.1 = "segment_000.ts" : Bool))) = true) :=
  ⟨(segment_upload_at_most_once _ "segment_000.ts").1,
   by decide,
   (segment_upload_at_most_once _ "segment_000.ts").2 _ (by decide)⟩

/-! ### C8: retry backoff -/

lemma getSeg_setSeg_self (m : List (String × SegEntry)) (k : String)
    (v : SegEntry) : getSeg (setSeg m k v) k = some v := by
  unfold getSeg setSeg
  by_cases hmem : m.any (fun p => p.1 = k)
  · rw [if_pos hmem]
    induction m with
    | nil => simp at hmem
    | cons p rest ih =>
      by_cases hp : p.1 = k
      · simp [hp]
      · simp only [List.map_cons, if_neg hp]
        rw [List.find?_cons_of_neg _ (by simpa using hp)]
        simp only [List.any_cons, hp] at hmem
        exact ih (by simpa using hmem)
  · rw [if_neg hmem]
    have hnone : m.find? (fun p => p.1 = k) = none := by
      rw [List.find?_eq_none]
      intro p hp
      simp only [List.any_eq_true, not_exists, not_and] at hmem
      simpa using hmem p hp
    simp [hnone]

/-- C8: after a failed upload attempt for a stable segment, the next
attempt is scheduled at `now + min(2^failures, 30)` with the per-segment
failure counter incremented — for every `failures ≥ 1` the code's
`min(2 ** min(failures, 5), 30)` equals `min(2 ** failures, 30)`, and the
delay never exceeds 30 seconds. -/
theorem upload_failure_backoff (f : ℕ) (_hf : 1 ≤ f)
    (st : UploaderState) (o : SegObs) (e : SegEntry)
    (hmem : o.name ∉ st.uploaded)
    (hget : getSeg st.segState o.name = some e)
    (hsize : 0 < o.size) (hsz : o.size = e.size) (hmt : o.mtime = e.mtime)
    (hts : e.nextAttempt ≤ o.now) (hok : o.uploadOk = false) :
    backoff f = min (2 ^ f) 30 ∧
    backoff f ≤ 30 ∧
    getSeg (processSegment st o).1.segState o.name =
      some ⟨o.size, o.mtime, o.now + (backoff (e.failures + 1) : ℚ),
        e.failures + 1⟩ := by
  refine ⟨?_, Nat.min_le_right _ _, ?_⟩
  · by_cases h5 : f ≤ 5
    · rw [backoff, Nat.min_eq_left h5]
    · have h32 : 2 ^ 5 ≤ 2 ^ f := Nat.pow_le_pow_right (by norm_num) (by omega)
      have h32' : (2 : ℕ) ^ 5 = 32 := by norm_num
      rw [backoff, Nat.min_eq_right (by omega : 5 ≤ f)]
      omega
  · unfold processSegment
    rw [if_neg hmem, hget]
    dsimp only
    rw [if_neg (by omega : ¬ o.size ≤ 0),
      if_neg (by simp [hsz, hmt] : ¬ (¬ o.size = e.size ∨ ¬ o.mtime = e.mtime)),
      if_neg (by exact not_lt.mpr hts), if_neg (by simp [hok])]
    exact getSeg_setSeg_self _ _ _

/-- C8 witness: a concrete failing attempt (second failure of a stable
100-byte segment at `now = 5`) is rescheduled for `now + 4`. -/
theorem upload_failure_backoff_witness :
    backoff 3 = min (2 ^ 3) 30 ∧
    backoff 3 ≤ 30 ∧
    getSeg (processSegment
        ⟨[], [("segment_001.ts", ⟨100, 2, 3, 1⟩)], 0⟩
        ⟨"segment_001.ts", 100, 2, 5, false⟩).1.segState "segment_001.ts" =
      some ⟨100, 2, (5 : ℚ) + ((backoff (1 + 1) : ℕ) : ℚ), 1 + 1⟩ :=
  upload_failure_backoff 3 (by norm_num)
    ⟨[], [("segment_001.ts", ⟨100, 2, 3, 1⟩)], 0⟩
    ⟨"segment_001.ts", 100, 2, 5, false⟩
    ⟨100, 2, 3, 1⟩
    (by decide) (by decide) (by decide) (by decide) (by decide)
    (by norm_num) (by decide)

/-! ### C3: status priority and the 3-second freshness window -/

/-- C3: with no store MP3, no store WAV and no local `final.mp3`, a local
progressive WAV reports `generating` while its mtime is under 3 seconds
old and `ready` from 3 seconds on, both with `file_type = "wav"`; and a
local `final.mp3` is preferred over the local WAV, giving `ready` with
`file_type = "mp3"`. -/
theorem status_local_wav_window (m now : ℚ) :
    (now - m < 3 → getAudioStatus none none false (some m) now =
      ⟨"generating", some "/api/v1/audio/stream/{session_id}", some "wav", none⟩) ∧
    (3 ≤ now - m → getAudioStatus none none false (some m) now =
      ⟨"ready", some "/api/v1/audio/stream/{session_id}", some "wav", none⟩) ∧
    (getAudioStatus none none true (some m) now).status = "ready" ∧
    (getAudioStatus none none true (some m) now).fileType = some "mp3" := by
  refine ⟨fun h => ?_, fun h => ?_, ?_, ?_⟩
  · simp [getAudioStatus, h]
  · simp [getAudioStatus, not_lt.mpr h]
  · simp [getAudioStatus]
  · simp [getAudioStatus]

/-- C3 witness: a WAV modified 1 second ago reads `generating`; 10 seconds
ago reads `ready`; a local MP3 wins over the WAV. -/
theorem status_local_wav_window_witness :
    (getAudioStatus none none false (some 0) 1 =
      ⟨"generating", some "/api/v1/audio/stream/{session_id}", some "wav", none⟩) ∧
    (getAudioStatus none none false (some 0) 10 =
      ⟨"ready", some "/api/v1/audio/stream/{session_id}", some "wav", none⟩) ∧
    (getAudioStatus none none true (some 0) 10).status = "ready" ∧
    (getAudioStatus none none true (some 0) 10).fileType = some "mp3" :=
  ⟨(status_local_wav_window 0 1).1 (by norm_num),
   (status_local_wav_window 0 10).2.1 (by norm_num),
   (status_local_wav_window 0 10).2.2.1,
   (status_local_wav_window 0 10).2.2.2⟩

/-! ### C7: voice overrides force regeneration -/

/-- C7 (amended): any *truthy* value for `speaker_voice_overrides` (a
non-empty mapping — Python truthiness) makes the request run with
`force_regenerate` treated as true regardless of the body's
`force_regenerate` field: the existing-audio short-circuits are skipped
and cleanup of prior audio assets runs before the new generation. -/
theorem voice_override_forces_regenerate
    (es : List (String × PyValue))
    (hasUserId s3Mp3 s3Wav localMp3 : Bool) (localWavAge : Option ℚ)
    (h : pyTruthy (pyGet (PyValue.pyDict es) "speaker_voice_overrides") = true) :
    computeForceRegenerate (some (PyValue.pyDict es)) = true ∧
    generateDecision (computeForceRegenerate (some (PyValue.pyDict es)))
        hasUserId s3Mp3 s3Wav localMp3 localWavAge = .cleanupThenStart := by
  have hne : es.isEmpty = false := by
    cases es with
    | nil => simp [pyGet, pyTruthy] at h
    | cons p rest => rfl
  have hforce : computeForceRegenerate (some (PyValue.pyDict es)) = true := by
    have hb : pyTruthy (PyValue.pyDict es) = true := by simp [pyTruthy, hne]
    have hd : isPyDict (PyValue.pyDict es) = true := rfl
    simp only [computeForceRegenerate, Option.getD_some, hb, hd, h,
      Bool.and_self, Bool.true_and, if_true]
  refine ⟨hforce, ?_⟩
  rw [hforce]
  simp [generateDecision]

/-- C7 witness: `{"speaker_voice_overrides": {"Kaveh": "en-David_man"},
"force_regenerate": false}` still forces regeneration. -/
theorem voice_override_forces_regenerate_witness :
    pyTruthy (pyGet (PyValue.pyDict
        [("speaker_voice_overrides",
          PyValue.pyDict [("Kaveh", PyValue.pyStr "en-David_man")]),
         ("force_regenerate", PyValue.pyBool false)])
        "speaker_voice_overrides") = true ∧
    (computeForceRegenerate (some (PyValue.pyDict
        [("speaker_voice_overrides",
          PyValue.pyDict [("Kaveh", PyValue.pyStr "en-David_man")]),
         ("force_regenerate", PyValue.pyBool false)])) = true ∧
     generateDecision (computeForceRegenerate (some (PyValue.pyDict
        [("speaker_voice_overrides",
          PyValue.pyDict [("Kaveh", PyValue.pyStr "en-David_man")]),
         ("force_regenerate", PyValue.pyBool false)])))
        true true true true (some 0) = .cleanupThenStart) :=
  ⟨rfl, voice_override_forces_regenerate _ true true true true (some 0) rfl⟩

/-- C7 counterexample: the claim as stated ("any value") fails — a body
that carries `speaker_voice_overrides: {}` (an empty dict, a value, but
falsy in Python) does not force regeneration: with `force_regenerate:
false` the computed flag stays false and the existing-audio short-circuit
is taken. -/
theorem voice_override_empty_counterexample :
    pyHasKey (PyValue.pyDict
        [("speaker_voice_overrides", PyValue.pyDict []),
         ("force_regenerate", PyValue.pyBool false)])
      "speaker_voice_overrides" = true ∧
    computeForceRegenerate (some (PyValue.pyDict
        [("speaker_voice_overrides", PyValue.pyDict []),
         ("force_regenerate", PyValue.pyBool false)])) = false ∧
    generateDecision (computeForceRegenerate (some (PyValue.pyDict
        [("speaker_voice_overrides", PyValue.pyDict []),
         ("force_regenerate", PyValue.pyBool false)])))
        true true false false none = .readyS3 :=
  ⟨rfl, rfl, rfl⟩

/-! ### C10: unparsable Range header falls back to the full file -/

/-- C10: when a local audio file exists and the request's Range header
fails to parse, `stream_audio` returns no error: it serves the entire
file, status 200, with `Accept-Ranges: bytes`. -/
theorem range_parse_failure_fallback (mp3Exists wavExists : Bool)
    (file : List ℕ) (h : String)
    (hex : (mp3Exists || wavExists) = true)
    (hparse : parseRange? h file.length = none) :
    streamAudio mp3Exists wavExists file (some h) = .fullFile 200 "bytes" := by
  have hnot : (¬ mp3Exists && ¬ wavExists) = false := by
    cases mp3Exists <;> cases wavExists <;> simp_all
  unfold streamAudio
  rw [hnot]
  simp only [Bool.false_eq_true, if_false, Option.getD_some]
  by_cases hempty : h.isEmpty
  · simp [hempty]
  · simp [hempty, hparse]

/-- C10 witness: `Range: bytes=abc-` (non-numeric lower bound) on a
present 3-byte WAV is served as a full 200 response. -/
theorem range_parse_failure_fallback_witness :
    ((false || true) = true) ∧
    (parseRange? "bytes=abc-" ([1, 2, 3] : List ℕ).length = none) ∧
    streamAudio false true [1, 2, 3] (some "bytes=abc-") = .fullFile 200 "bytes" :=
  ⟨rfl, by decide,
   range_parse_failure_fallback false true [1, 2, 3] "bytes=abc-" rfl (by decide)⟩

/-! ### C4 and C5: speaker map and slot assignment -/

lemma find?_map_replace_ne (rest : List (String × String)) (k v k' : String)
    (hk : k' ≠ k) :
    (rest.map (fun q => if q.1 = k then (k, v) else q)).find?
        (fun p => p.1 = k') =
      rest.find? (fun p => p.1 = k') := by
  induction rest with
  | nil => rfl
  | cons q rest ih =>
    by_cases hq : q.1 = k
    · have hkk' : ¬ k = k' := fun h => hk h.symm
      rw [List.map_cons, if_pos hq]
      rw [List.find?_cons_of_neg _ (by simpa using hkk'),
        List.find?_cons_of_neg _ (by simpa [hq] using hkk'), ih]
    · rw [List.map_cons, if_neg hq]
      by_cases hq' : q.1 = k'
      · rw [List.find?_cons_of_pos _ (by simpa using hq'),
          List.find?_cons_of_pos _ (by simpa using hq')]
      · rw [List.find?_cons_of_neg _ (by simpa using hq'),
          List.find?_cons_of_neg _ (by simpa using hq'), ih]

lemma find?_map_replace_self (rest : List (String × String)) (k v : String)
    (hmem : rest.any (fun p => p.1 = k)) :
    (rest.map (fun q => if q.1 = k then (k, v) else q)).find?
        (fun p => p.1 = k) = some (k, v) := by
  induction rest with
  | nil => simp at hmem
  | cons q rest ih =>
    by_cases hq : q.1 = k
    · rw [List.map_cons, if_pos hq, List.find?_cons_of_pos _ (by simp)]
    · rw [List.map_cons, if_neg hq, List.find?_cons_of_neg _ (by simpa using hq)]
      simp only [List.any_cons, hq] at hmem
      exact ih (by simpa using hmem)

/-- Lookup after a Python dict assignment. -/
lemma dictGet?_dictInsert (m : List (String × String)) (k v k' : String) :
    dictGet? (dictInsert m k v) k' = if k' = k then some v else dictGet? m k' := by
  unfold dictInsert dictGet?
  by_cases hmem : m.any (fun p => p.1 = k)
  · rw [if_pos hmem]
    by_cases hk : k' = k
    · rw [if_pos hk, hk, find?_map_replace_self m k v hmem]
      rfl
    · rw [find?_map_replace_ne m k v k' hk, if_neg hk]
  · rw [if_neg hmem]
    have hnone : m.find? (fun p => p.1 = k) = none := by
      rw [List.find?_eq_none]
      intro p hp
      simp only [List.any_eq_true, not_exists, not_and] at hmem
      simpa using hmem p hp
    by_cases hk : k' = k
    · rw [if_pos hk, hk, List.find?_append, hnone]
      simp
    · rw [List.find?_append, if_neg hk]
      have hkk' : ¬ k = k' := fun h => hk h.symm
      have h2 : ([(k, v)].find? (fun p => p.1 = k')) = none := by
        simp [hkk']
      rw [h2]
      simp

/-- A fold of dict inserts whose keys all avoid `k` does not change the
lookup of `k`. -/
lemma foldl_dictInsert_preserve (ps : List (ℕ × String))
    (m0 : List (String × String)) (k : String)
    (h : ∀ p ∈ ps, p.2 ≠ k) :
    dictGet? (ps.foldl
        (fun m p => dictInsert m p.2 ("Speaker " ++ toString (p.1 + 2))) m0) k =
      dictGet? m0 k := by
  induction ps generalizing m0 with
  | nil => rfl
  | cons p ps ih =>
    rw [List.foldl_cons, ih _ (fun q hq => h q (List.mem_cons_of_mem p hq)),
      dictGet?_dictInsert, if_neg (fun hkp => h p (List.mem_cons_self p ps) hkp.symm)]

/-- In a fold of dict inserts with pairwise-distinct keys, each key looks
up to its own inserted value. -/
lemma foldl_dictInsert_get (ps : List (ℕ × String)) :
    ∀ (m0 : List (String × String)) (j : ℕ) (hj : j < ps.length),
      (ps.map Prod.snd).Nodup →
      dictGet? (ps.foldl
          (fun m p => dictInsert m p.2 ("Speaker " ++ toString (p.1 + 2))) m0)
        (ps.get ⟨j, hj⟩).2 =
        some ("Speaker " ++ toString ((ps.get ⟨j, hj⟩).1 + 2)) := by
  induction ps with
  | nil => intro m0 j hj _; simp at hj
  | cons p ps ih =>
    intro m0 j hj hnodup
    simp only [List.map_cons, List.nodup_cons] at hnodup
    match j with
    | 0 =>
      rw [List.foldl_cons]
      have : ∀ q ∈ ps, q.2 ≠ p.2 := by
        intro q hq hcontr
        exact hnodup.1 (hcontr ▸ List.mem_map_of_mem Prod.snd hq)
      rw [show ((p :: ps).get ⟨0, hj⟩) = p from rfl,
        foldl_dictInsert_preserve ps _ p.2 this, dictGet?_dictInsert, if_pos rfl]
    | Nat.succ j' =>
      rw [List.foldl_cons,
        show ((p :: ps).get ⟨j' + 1, hj⟩) = ps.get ⟨j', by simpa using hj⟩ from rfl]
      exact ih _ j' (by simpa using hj) hnodup.2

lemma formatLine_mem_scriptLines (story : StoryStructure) (ch : Chapter)
    (l : DialogueLine) (hch : ch ∈ story.chapters) (hl : l ∈ ch.lines) :
    formatLine (buildSpeakerMapping story.characters) l ∈ scriptLines story := by
  unfold scriptLines
  rw [List.mem_flatten]
  exact ⟨ch.lines.map (formatLine (buildSpeakerMapping story.characters)),
    List.mem_map_of_mem _ hch, List.mem_map_of_mem _ hl⟩

/-- C4: under the input contract (characters exclude the narrator and are
pairwise distinct), `to_tts_script`'s speaker map sends the narrator to the
first slot (`Speaker 1`), the declared characters, in declaration order, to
`Speaker 2`..`Speaker 4` (at most the first three), and every line whose
speaker is absent from the map is emitted in the script as a `Speaker 1`
line. -/
theorem speaker_map_slots (story : StoryStructure)
    (hN : "Narrator" ∉ story.characters)
    (hD : story.characters.Nodup) :
    dictGet? (buildSpeakerMapping story.characters) "Narrator" =
      some "Speaker 1" ∧
    (∀ i (hi : i < story.characters.length), i < 3 →
      dictGet? (buildSpeakerMapping story.characters)
          (story.characters.get ⟨i, hi⟩) =
        some ("Speaker " ++ toString (i + 2))) ∧
    (∀ ch ∈ story.chapters, ∀ l ∈ ch.lines,
      dictGet? (buildSpeakerMapping story.characters) l.speaker = none →
      formatLine (buildSpeakerMapping story.characters) l =
        "Speaker 1: " ++ l.text ∧
      ("Speaker 1: " ++ l.text) ∈ scriptLines story) := by
  refine ⟨?_, ?_, ?_⟩
  · unfold buildSpeakerMapping
    rw [foldl_dictInsert_preserve]
    · rfl
    · intro p hp hcontr
      have : p.2 ∈ story.characters.take 3 := by
        have hm := List.mem_map_of_mem Prod.snd hp
        rwa [List.enum_map_snd] at hm
      exact hN (List.mem_of_mem_take (hcontr ▸ this))
  · intro i hi hi3
    unfold buildSpeakerMapping
    have hlen : i < (story.characters.take 3).enum.length := by
      rw [List.enum_length, List.length_take]
      omega
    have hget : ((story.characters.take 3).enum.get ⟨i, hlen⟩) =
        (i, story.characters.get ⟨i, hi⟩) := by
      rw [List.get_eq_getElem, List.getElem_enum]
      simp
    have hnodup : ((story.characters.take 3).enum.map Prod.snd).Nodup := by
      rw [List.enum_map_snd]
      exact hD.sublist (List.take_sublist 3 story.characters)
    have := foldl_dictInsert_get (story.characters.take 3).enum
      [("Narrator", "Speaker 1")] i hlen hnodup
    rw [hget] at this
    exact this
  · intro ch hch l hl hnone
    have hfmt : formatLine (buildSpeakerMapping story.characters) l =
        "Speaker 1: " ++ l.text := by
      unfold formatLine
      rw [hnone]
      congr 1
    exact ⟨hfmt, hfmt ▸ formatLine_mem_scriptLines story ch l hch hl⟩

/-- C4 witness: narrator plus characters Kaveh and Mirza; a line by the
undeclared speaker "Ghost" lands on `Speaker 1`. -/
theorem speaker_map_slots_witness :
    ("Narrator" ∉ ["Kaveh", "Mirza"]) ∧
    (["Kaveh", "Mirza"] : List String).Nodup ∧
    dictGet? (buildSpeakerMapping
        (StoryStructure.mk "t" ["Kaveh", "Mirza"]
          [Chapter.mk 1 "c"
            [DialogueLine.mk "Ghost" "boo"]]).characters) "Narrator" =
      some "Speaker 1" := by
  have h := speaker_map_slots
    (StoryStructure.mk "t" ["Kaveh", "Mirza"]
      [Chapter.mk 1 "c" [DialogueLine.mk "Ghost" "boo"]])
    (by decide) (by decide)
  exact ⟨by decide, by decide, h.1⟩

/-- C5 counterexample: `to_tts_script` returns no warning.  A story with
four characters whose fourth character speaks produces a result identical
to that of the same story declaring only the first three characters — the
returned triple carries no indication of the over-limit condition, so no
warning is in the result. -/
theorem formatter_no_warning_counterexample :
    toTtsScript (StoryStructure.mk "t" ["A", "B", "C", "D"]
        [Chapter.mk 1 "c" [DialogueLine.mk "D" "hello"]]) =
      toTtsScript (StoryStructure.mk "t" ["A", "B", "C"]
        [Chapter.mk 1 "c" [DialogueLine.mk "D" "hello"]]) ∧
    (StoryStructure.mk "t" ["A", "B", "C", "D"]
        [Chapter.mk 1 "c" [DialogueLine.mk "D" "hello"]]).characters.length > 3 ∧
    ¬ (StoryStructure.mk "t" ["A", "B", "C"]
        [Chapter.mk 1 "c" [DialogueLine.mk "D" "hello"]]).characters.length > 3 :=
  ⟨rfl, by decide, by decide⟩

/-- C5 (amended): a story with more than three non-narrator characters
never makes the formatter fail: characters beyond the first three are
absent from the speaker map, and their lines are emitted under the first
slot (`Speaker 1`) in the produced script — but no warning appears in the
formatter's result (see the counterexample). -/
theorem extra_characters_fold_to_slot1 (story : StoryStructure) (j : ℕ)
    (hj : j < story.characters.length) (h3 : 3 ≤ j)
    (hN : "Narrator" ∉ story.characters) (hD : story.characters.Nodup) :
    dictGet? (buildSpeakerMapping story.characters)
        (story.characters.get ⟨j, hj⟩) = none ∧
    (∀ ch ∈ story.chapters, ∀ l ∈ ch.lines,
      l.speaker = story.characters.get ⟨j, hj⟩ →
      formatLine (buildSpeakerMapping story.characters) l =
        "Speaker 1: " ++ l.text ∧
      ("Speaker 1: " ++ l.text) ∈ scriptLines story) := by
  have hnotTake : story.characters.get ⟨j, hj⟩ ∉ story.characters.take 3 := by
    intro hcontr
    rw [List.mem_iff_getElem] at hcontr
    obtain ⟨i, hi, hig⟩ := hcontr
    have hi3 : i < 3 := by
      have hlen := hi
      rw [List.length_take] at hlen
      omega
    rw [List.getElem_take, List.get_eq_getElem] at hig
    have : i = j := (hD.getElem_inj_iff).mp hig
    omega
  have hnotNarr : story.characters.get ⟨j, hj⟩ ≠ "Narrator" := by
    intro hcontr
    exact hN (hcontr ▸ List.get_mem _ _ _)
  have hnone : dictGet? (buildSpeakerMapping story.characters)
      (story.characters.get ⟨j, hj⟩) = none := by
    unfold buildSpeakerMapping
    rw [foldl_dictInsert_preserve]
    · unfold dictGet?
      rw [List.find?_cons_of_neg _ (by simp; exact fun h => hnotNarr h.symm)]
      rfl
    · intro p hp hcontr
      have hm : p.2 ∈ story.characters.take 3 := by
        have := List.mem_map_of_mem Prod.snd hp
        rwa [List.enum_map_snd] at this
      exact hnotTake (hcontr ▸ hm)
  refine ⟨hnone, ?_⟩
  intro ch hch l hl hspeak
  have hlnone : dictGet? (buildSpeakerMapping story.characters) l.speaker = none := by
    rw [hspeak]; exact hnone
  have hfmt : formatLine (buildSpeakerMapping story.characters) l =
      "Speaker 1: " ++ l.text := by
    unfold formatLine
    rw [hlnone]
    congr 1
  exact ⟨hfmt, hfmt ▸ formatLine_mem_scriptLines story ch l hch hl⟩

/-- C5 witness: the fourth character "D" of a four-character story is
unmapped and its line lands in the script under `Speaker 1`. -/
theorem extra_characters_fold_to_slot1_witness :
    (3 < (["A", "B", "C", "D"] : List String).length) ∧
    ("Narrator" ∉ (["A", "B", "C", "D"] : List String)) ∧
    (["A", "B", "C", "D"] : List String).Nodup ∧
    dictGet? (buildSpeakerMapping ["A", "B", "C", "D"]) "D" = none ∧
    formatLine (buildSpeakerMapping ["A", "B", "C", "D"])
        (DialogueLine.mk "D" "hello") = "Speaker 1: hello" ∧
    ("Speaker 1: hello" ∈ scriptLines (StoryStructure.mk "t"
        ["A", "B", "C", "D"]
        [Chapter.mk 1 "c" [DialogueLine.mk "D" "hello"]])) := by
  have h := extra_characters_fold_to_slot1
    (StoryStructure.mk "t" ["A", "B", "C", "D"]
      [Chapter.mk 1 "c" [DialogueLine.mk "D" "hello"]])
    3 (by decide) (by decide) (by decide) (by decide)
  have h2 := h.2 (Chapter.mk 1 "c" [DialogueLine.mk "D" "hello"]) (by decide)
    (DialogueLine.mk "D" "hello") (by decide) rfl
  exact ⟨by decide, by decide, by decide, h.1, h2.1, h2.2⟩

end Story42
